import Mathlib

/-!
Shallow embedding of the EPL season-comparison engine
(`src/fixture_mapper.py`, `src/comparison.py`) and proofs about it.

Fixtures and standings are modelled as Lean lists of records; pandas
DataFrames become lists, `dict` becomes an association list with
first-key lookup (insertion updates in place, mirroring Python `dict`),
and nullable score columns become `Option Int`.
-/

namespace EPL

/-- A fixture row, as loaded by `data_fetcher.get_fixtures`.  Scores and the
other optional columns are nullable. -/
structure Fixture where
  id : Nat
  matchday : Option Nat
  home_team : String
  away_team : String
  home_score : Option Int
  away_score : Option Int
  fixture_status : Option String
  utcDate : Option String
deriving DecidableEq

/-- One row of `map_fixtures`' output: the current fixture joined with the
comparison season's equivalent (nullable when no equivalent was found). -/
structure MappedFixture where
  current_fixture_id : Nat
  current_matchday : Option Nat
  current_home_team : String
  current_away_team : String
  current_home_score : Option Int
  current_away_score : Option Int
  mapped_home_team : String
  mapped_away_team : String
  comparison_fixture_id : Option Nat
  comparison_matchday : Option Nat
  comparison_home_score : Option Int
  comparison_away_score : Option Int
  mapping_found : Bool
deriving DecidableEq

/-- A row of the Championship final-standings signal consumed by
`_create_team_mapping` (only `position` and `team_name` are read). -/
structure ChampionshipRow where
  position : Nat
  team_name : String
deriving DecidableEq

/-- `FixtureMapper._find_equivalent_fixture`: first exact `(home, away)`
match, else first reversed `(away, home)` match, else `none`. -/
def findEquivalentFixture (fixtures : List Fixture) (home_team away_team : String) :
    Option Fixture :=
  match fixtures.find? (fun f => f.home_team == home_team && f.away_team == away_team) with
  | some m => some m
  | none => fixtures.find? (fun f => f.home_team == away_team && f.away_team == home_team)

/-- Python `team_mapping.get(k, k)`: look up a key in the substitution,
defaulting to the key itself. -/
def mappingGet (m : List (String × String)) (k : String) : String :=
  match m.find? (fun p => p.1 == k) with
  | some p => p.2
  | none => k

/-- Body of the per-fixture loop of `FixtureMapper.map_fixtures`. -/
def mapOneFixture (comparison_fixtures : List Fixture)
    (team_mapping : List (String × String)) (f : Fixture) : MappedFixture :=
  let mapped_home := mappingGet team_mapping f.home_team
  let mapped_away := mappingGet team_mapping f.away_team
  match findEquivalentFixture comparison_fixtures mapped_home mapped_away with
  | some g =>
      { current_fixture_id := f.id
        current_matchday := f.matchday
        current_home_team := f.home_team
        current_away_team := f.away_team
        current_home_score := f.home_score
        current_away_score := f.away_score
        mapped_home_team := mapped_home
        mapped_away_team := mapped_away
        comparison_fixture_id := some g.id
        comparison_matchday := g.matchday
        comparison_home_score := g.home_score
        comparison_away_score := g.away_score
        mapping_found := true }
  | none =>
      { current_fixture_id := f.id
        current_matchday := f.matchday
        current_home_team := f.home_team
        current_away_team := f.away_team
        current_home_score := f.home_score
        current_away_score := f.away_score
        mapped_home_team := mapped_home
        mapped_away_team := mapped_away
        comparison_fixture_id := none
        comparison_matchday := none
        comparison_home_score := none
        comparison_away_score := none
        mapping_found := false }

/-- `FixtureMapper.map_fixtures` restricted to its pure core: one mapped
record per current-season fixture, in current-season order. -/
def map_fixtures (current_fixtures comparison_fixtures : List Fixture)
    (team_mapping : List (String × String)) : List MappedFixture :=
  current_fixtures.map (mapOneFixture comparison_fixtures team_mapping)

/-- Team universe of a season: home and away participants, deduplicated
(Python builds a `set`; we use a deduplicated list). -/
def seasonTeams (fixtures : List Fixture) : List String :=
  ((fixtures.map Fixture.home_team) ++ (fixtures.map Fixture.away_team)).dedup

/-- Python set difference on team lists. -/
def setDiff (a b : List String) : List String :=
  a.filter (fun x => !(b.contains x))

/-- The alias table of `FixtureMapper._match_team_name`. -/
def name_mappings : List (String × String) :=
  [("Leicester City", "Leicester"), ("Leeds United", "Leeds"),
   ("Southampton FC", "Southampton"), ("Norwich City", "Norwich"),
   ("Watford FC", "Watford"), ("Burnley FC", "Burnley")]

/-- Python `str.split()` on a character list: split on space runs, dropping
empty tokens.  `acc` holds the current token reversed. -/
def splitWordsAux : List Char → List Char → List (List Char)
  | [], acc => if acc = [] then [] else [acc.reverse]
  | c :: cs, acc =>
      if c = ' ' then
        if acc = [] then splitWordsAux cs [] else acc.reverse :: splitWordsAux cs []
      else splitWordsAux cs (c :: acc)

/-- The lowercased tokens of a team name (Python `name.lower().split()`;
lowercasing commutes with splitting on spaces). -/
def lowerWords (s : String) : List (List Char) :=
  (splitWordsAux s.toList []).map (List.map Char.toLower)

/-- Python `set(a.lower().split()) & set(b.lower().split())` being nonempty. -/
def wordsOverlap (a b : String) : Bool :=
  (lowerWords a).any (fun w => (lowerWords b).contains w)

/-- `FixtureMapper._match_team_name`: exact match, then alias table, then
first team sharing a lowercase token. -/
def match_team_name (championship_name : String) (epl_teams : List String) :
    Option String :=
  if epl_teams.contains championship_name then
    some championship_name
  else
    match name_mappings.find? (fun p => p.1 == championship_name) with
    | some p =>
        if epl_teams.contains p.2 then some p.2
        else epl_teams.find? (fun t => wordsOverlap championship_name t)
    | none => epl_teams.find? (fun t => wordsOverlap championship_name t)

/-- Python `dict` assignment `m[k] = v`: update in place if the key exists,
else append. -/
def dictInsert (m : List (String × String)) (k v : String) : List (String × String) :=
  if m.any (fun p => p.1 == k) then
    m.map (fun p => if p.1 == k then (k, v) else p)
  else m ++ [(k, v)]

/-- Association-list lookup (first matching key wins, like `dict` access). -/
def dictLookup (m : List (String × String)) (k : String) : Option String :=
  (m.find? (fun p => p.1 == k)).map Prod.snd

/-- Code-point lexicographic comparison of character lists, as Python
compares strings. -/
def charListLe : List Char → List Char → Bool
  | [], _ => true
  | _ :: _, [] => false
  | a :: as, b :: bs => if a = b then charListLe as bs else decide (a < b)

/-- Python string `<=` (code-point lexicographic). -/
def strLe (a b : String) : Bool :=
  charListLe a.toList b.toList

/-- Lexicographic sort, standing in for Python `sorted` on strings. -/
def lexSort (l : List String) : List String :=
  List.insertionSort (fun a b => strLe a b = true) l

/-- The `for i, (_, promoted_team) in enumerate(promoted_teams_sorted)` loop of
`_create_team_mapping`: promoted rank `i` is assigned
`relegated_teams_sorted[-(i+1)]` when `i` is in range. -/
def champAssign (rel_sorted : List String) :
    Nat → List (Nat × String) → List (String × String) → List (String × String)
  | _, [], m => m
  | i, (_, p) :: rest, m =>
      champAssign rel_sorted (i + 1) rest
        (if i < rel_sorted.length then
          dictInsert m p (rel_sorted.getD (rel_sorted.length - 1 - i) "")
        else m)

/-- The matched promoted teams: the first three standings rows
(`championship_standings.head(3)`), name-resolved against the promoted set
and sorted by Championship position. -/
def champMatched (promoted : List String) (standings : List ChampionshipRow) :
    List (Nat × String) :=
  List.insertionSort (fun a b : Nat × String => a.1 ≤ b.1)
    ((standings.take 3).filterMap
      (fun row => (match_team_name row.team_name promoted).map (fun u => (row.position, u))))

/-- The standings-based part of the mapping (empty when the signal is empty or
the promoted/relegated counts differ). -/
def champBase (promoted relegated : List String) (standings : List ChampionshipRow) :
    List (String × String) :=
  if standings ≠ [] ∧ promoted.length = relegated.length then
    champAssign (lexSort relegated) 0 (champMatched promoted standings) []
  else []

/-- `FixtureMapper._create_team_mapping` on in-memory inputs: standings-based
pairing for matched promoted teams, then a lexicographic `zip` fallback over
the remaining promoted/relegated teams. -/
def create_team_mapping (current_fixtures comparison_fixtures : List Fixture)
    (championship_standings : List ChampionshipRow) : List (String × String) :=
  let current_teams := seasonTeams current_fixtures
  let comparison_teams := seasonTeams comparison_fixtures
  let promoted := setDiff current_teams comparison_teams
  let relegated := setDiff comparison_teams current_teams
  if promoted = [] ∧ relegated = [] then []
  else
    let base := champBase promoted relegated championship_standings
    let remaining_promoted := promoted.filter (fun t => !((base.map Prod.fst).contains t))
    let remaining_relegated := relegated.filter (fun t => !((base.map Prod.snd).contains t))
    base ++ ((lexSort remaining_promoted).zip (lexSort remaining_relegated))

/-! ## Standings aggregation (`comparison.py`) -/

/-- Which season-view `_calculate_team_performance` aggregates. -/
inductive ViewType
  | current
  | comparison
deriving DecidableEq

/-- Team column used for the home side of a view (`current_home_team`, or the
mapped team name for the comparison view). -/
def viewHomeTeam : ViewType → MappedFixture → String
  | .current, f => f.current_home_team
  | .comparison, f => f.mapped_home_team

/-- Team column used for the away side of a view. -/
def viewAwayTeam : ViewType → MappedFixture → String
  | .current, f => f.current_away_team
  | .comparison, f => f.mapped_away_team

/-- Home-score column of a view. -/
def viewHomeScore : ViewType → MappedFixture → Option Int
  | .current, f => f.current_home_score
  | .comparison, f => f.comparison_home_score

/-- Away-score column of a view. -/
def viewAwayScore : ViewType → MappedFixture → Option Int
  | .current, f => f.current_away_score
  | .comparison, f => f.comparison_away_score

/-- The `valid_fixtures` filter of `_calculate_team_performance`: it keeps
rows with `mapping_found == True` and non-null scores for the view's score
columns — for **both** views. -/
def validFixtures (v : ViewType) (mapped_fixtures : List MappedFixture) :
    List MappedFixture :=
  mapped_fixtures.filter
    (fun f => f.mapping_found && (viewHomeScore v f).isSome && (viewAwayScore v f).isSome)

/-- Strict greater-than on nullable scores (pandas comparisons with a null
are false). -/
def scoreGt (a b : Option Int) : Bool :=
  match a, b with
  | some x, some y => x > y
  | _, _ => false

/-- Equality on nullable scores (false when either side is null). -/
def scoreEq (a b : Option Int) : Bool :=
  match a, b with
  | some x, some y => x == y
  | _, _ => false

/-- Strict less-than on nullable scores. -/
def scoreLt (a b : Option Int) : Bool :=
  match a, b with
  | some x, some y => x < y
  | _, _ => false

/-- Result record of `_calculate_fixtures_stats`. -/
structure SideStats where
  games : Nat
  points : Nat
  goals_for : Int
  goals_against : Int
  wins : Nat
  draws : Nat
  losses : Nat
deriving DecidableEq

/-- `TeamPerformanceComparison._calculate_fixtures_stats`: counts and sums
over one team's home (or away) fixtures; null scores sum as 0, as in pandas. -/
def calcFixturesStats (fixtures : List MappedFixture)
    (team_score opponent_score : MappedFixture → Option Int) : SideStats :=
  let wins := fixtures.countP (fun f => scoreGt (team_score f) (opponent_score f))
  let draws := fixtures.countP (fun f => scoreEq (team_score f) (opponent_score f))
  let losses := fixtures.countP (fun f => scoreLt (team_score f) (opponent_score f))
  { games := fixtures.length
    points := wins * 3 + draws * 1
    goals_for := (fixtures.map (fun f => (team_score f).getD 0)).sum
    goals_against := (fixtures.map (fun f => (opponent_score f).getD 0)).sum
    wins := wins
    draws := draws
    losses := losses }

/-- One row of the aggregated standings table. -/
structure TeamStanding where
  team : String
  games_played : Nat
  points : Nat
  goals_for : Int
  goals_against : Int
  goal_difference : Int
  wins : Nat
  draws : Nat
  losses : Nat
deriving DecidableEq

/-- Body of the per-team loop of `_calculate_team_performance`. -/
def teamPerformanceRow (v : ViewType) (valid : List MappedFixture) (team : String) :
    TeamStanding :=
  let home_fixtures := valid.filter (fun f => viewHomeTeam v f == team)
  let away_fixtures := valid.filter (fun f => viewAwayTeam v f == team)
  let home_stats := calcFixturesStats home_fixtures (viewHomeScore v) (viewAwayScore v)
  let away_stats := calcFixturesStats away_fixtures (viewAwayScore v) (viewHomeScore v)
  let gf := home_stats.goals_for + away_stats.goals_for
  let ga := home_stats.goals_against + away_stats.goals_against
  { team := team
    games_played := home_stats.games + away_stats.games
    points := home_stats.points + away_stats.points
    goals_for := gf
    goals_against := ga
    goal_difference := gf - ga
    wins := home_stats.wins + away_stats.wins
    draws := home_stats.draws + away_stats.draws
    losses := home_stats.losses + away_stats.losses }

/-- The `all_teams` list: every team appearing as home or away in the valid
fixtures (a Python set; modelled as a deduplicated list). -/
def allTeams (v : ViewType) (valid : List MappedFixture) : List String :=
  (valid.map (viewHomeTeam v) ++ valid.map (viewAwayTeam v)).dedup

/-- `TeamPerformanceComparison._calculate_team_performance`. -/
def calculate_team_performance (mapped_fixtures : List MappedFixture) (v : ViewType) :
    List TeamStanding :=
  let valid := validFixtures v mapped_fixtures
  (allTeams v valid).map (teamPerformanceRow v valid)

/-! ## Merge and comparison output (`_merge_and_calculate_differences`) -/

/-- An all-zero standing for a team missing from one side of the outer join
(the `fillna(0)` step). -/
def zeroStanding (team : String) : TeamStanding :=
  { team := team, games_played := 0, points := 0, goals_for := 0,
    goals_against := 0, goal_difference := 0, wins := 0, draws := 0, losses := 0 }

/-- A merged row: one team with its current and comparison standings. -/
structure MergedRow where
  team : String
  cur : TeamStanding
  prev : TeamStanding
deriving DecidableEq

/-- `pd.merge(current, comparison, on="team", how="outer")` followed by
`fillna(0)`, for tables with unique team keys: current rows in order, joined
with their comparison row or a zero row, then comparison-only rows. -/
def outerMerge (cur comp : List TeamStanding) : List MergedRow :=
  (cur.map (fun c =>
    { team := c.team, cur := c,
      prev := (comp.find? (fun p => p.team == c.team)).getD (zeroStanding c.team) }))
  ++ ((comp.filter (fun p => !(cur.any (fun c => c.team == p.team)))).map
      (fun p => { team := p.team, cur := zeroStanding p.team, prev := p }))

/-- One output row of `ComparisonEngine.compare` (`display_df` columns plus
the underscore-prefixed internal columns). -/
structure ComparisonRow where
  league_position : Nat
  team : String
  won : Nat
  draw : Nat
  lost : Nat
  goals_for : Int
  goals_against : Int
  goal_difference : Int
  points : Nat
  previous_won : Nat
  previous_draw : Nat
  previous_lost : Nat
  previous_goals_for : Int
  previous_goals_against : Int
  previous_goal_difference : Int
  previous_points : Nat
  points_difference : Int
  points_improved : Bool
  goal_difference_improved : Bool
  points_percentage_change : ℚ
  goal_difference_change : Int
  goals_for_difference : Int
  goals_against_difference : Int
deriving DecidableEq

/-- Build one output row from a merged row and its (1-based) league position.
The percentage change divides in exact rationals, with the source's
`> 0` guard on comparison points. -/
def mkComparisonRow (pos : Nat) (r : MergedRow) : ComparisonRow :=
  { league_position := pos
    team := r.team
    won := r.cur.wins
    draw := r.cur.draws
    lost := r.cur.losses
    goals_for := r.cur.goals_for
    goals_against := r.cur.goals_against
    goal_difference := r.cur.goal_difference
    points := r.cur.points
    previous_won := r.prev.wins
    previous_draw := r.prev.draws
    previous_lost := r.prev.losses
    previous_goals_for := r.prev.goals_for
    previous_goals_against := r.prev.goals_against
    previous_goal_difference := r.prev.goal_difference
    previous_points := r.prev.points
    points_difference := (r.cur.points : Int) - (r.prev.points : Int)
    points_improved := (r.cur.points : Int) - (r.prev.points : Int) > 0
    goal_difference_improved := r.cur.goal_difference - r.prev.goal_difference > 0
    points_percentage_change :=
      if 0 < r.prev.points then
        (((r.cur.points : ℚ) - (r.prev.points : ℚ)) / (r.prev.points : ℚ)) * 100
      else 0
    goal_difference_change := r.cur.goal_difference - r.prev.goal_difference
    goals_for_difference := r.cur.goals_for - r.prev.goals_for
    goals_against_difference := r.cur.goals_against - r.prev.goals_against }

/-- `merged["league_position"] = range(1, len(merged) + 1)`: assign positions
`n, n+1, ...` down the sorted rows. -/
def addPositions : Nat → List MergedRow → List ComparisonRow
  | _, [] => []
  | n, r :: rs => mkComparisonRow n r :: addPositions (n + 1) rs

/-- `TeamPerformanceComparison._merge_and_calculate_differences`: outer-join
the two standings, drop teams with zero current wins+draws+losses, sort by
current points descending (stable), and assign positions 1..N. -/
def merge_and_calculate_differences (cur comp : List TeamStanding) :
    List ComparisonRow :=
  let merged := outerMerge cur comp
  let playing := merged.filter (fun r => 0 < r.cur.wins + r.cur.draws + r.cur.losses)
  let sorted := List.insertionSort (fun a b => b.cur.points ≤ a.cur.points) playing
  addPositions 1 sorted

/-- `TeamPerformanceComparison.compare_seasons` on in-memory inputs: build the
team mapping, project the fixtures, aggregate both views, and merge. -/
def compare_seasons (current_fixtures comparison_fixtures : List Fixture)
    (championship_standings : List ChampionshipRow) : List ComparisonRow :=
  let team_mapping :=
    create_team_mapping current_fixtures comparison_fixtures championship_standings
  let mapped := map_fixtures current_fixtures comparison_fixtures team_mapping
  merge_and_calculate_differences
    (calculate_team_performance mapped ViewType.current)
    (calculate_team_performance mapped ViewType.comparison)

/-- Count of decisive (non-drawn) fixtures among a view's qualifying
fixtures. -/
def decisiveCount (mapped_fixtures : List MappedFixture) (v : ViewType) : Nat :=
  (validFixtures v mapped_fixtures).countP
    (fun f => !(scoreEq (viewHomeScore v f) (viewAwayScore v f)))

/-- Count of drawn fixtures among a view's qualifying fixtures. -/
def drawnCount (mapped_fixtures : List MappedFixture) (v : ViewType) : Nat :=
  (validFixtures v mapped_fixtures).countP
    (fun f => scoreEq (viewHomeScore v f) (viewAwayScore v f))

/-! ## Concrete example inputs -/

/-- Build a fixture with only the fields the mapper reads. -/
def mkFixture (id : Nat) (h a : String) (hs ascore : Option Int) : Fixture :=
  { id := id, matchday := none, home_team := h, away_team := a,
    home_score := hs, away_score := ascore, fixture_status := none, utcDate := none }

/-- Build a mapped fixture whose mapped team names equal the current ones. -/
def mkMapped (h a : String) (hs ascore : Option Int) (found : Bool)
    (chs cas : Option Int) : MappedFixture :=
  { current_fixture_id := 0, current_matchday := none,
    current_home_team := h, current_away_team := a,
    current_home_score := hs, current_away_score := ascore,
    mapped_home_team := h, mapped_away_team := a,
    comparison_fixture_id := if found then some 0 else none,
    comparison_matchday := none,
    comparison_home_score := if found then chs else none,
    comparison_away_score := if found then cas else none,
    mapping_found := found }

/-- The spec's worked scenario: Arsenal 2–1 Chelsea and Chelsea 1–3 Liverpool
in the current season, both with a mapped comparison fixture. -/
def exScenario : List MappedFixture :=
  [mkMapped "Arsenal" "Chelsea" (some 2) (some 1) true (some 1) (some 0),
   mkMapped "Chelsea" "Liverpool" (some 1) (some 3) true (some 0) (some 0)]

/-- A finished current-season fixture whose comparison equivalent was not
found (`mapping_found = false`). -/
def exUnmapped : MappedFixture :=
  mkMapped "Arsenal" "Chelsea" (some 2) (some 1) false none none

/-- Arsenal's current-season standing in `exScenario`. -/
def exArsenalStanding : TeamStanding :=
  { team := "Arsenal", games_played := 1, points := 3, goals_for := 2,
    goals_against := 1, goal_difference := 1, wins := 1, draws := 0, losses := 0 }

/-! ## Helper lemmas -/

theorem mem_validFixtures {v : ViewType} {mf : List MappedFixture} {f : MappedFixture}
    (h : f ∈ validFixtures v mf) :
    f.mapping_found = true ∧ (viewHomeScore v f).isSome = true ∧
      (viewAwayScore v f).isSome = true := by
  unfold validFixtures at h
  rw [List.mem_filter] at h
  simp only [Bool.and_eq_true] at h
  exact ⟨h.2.1.1, h.2.1.2, h.2.2⟩

theorem length_eq_wdl (l : List MappedFixture) (ts os : MappedFixture → Option Int)
    (h : ∀ f ∈ l, (ts f).isSome ∧ (os f).isSome) :
    l.length = l.countP (fun f => scoreGt (ts f) (os f))
      + l.countP (fun f => scoreEq (ts f) (os f))
      + l.countP (fun f => scoreLt (ts f) (os f)) := by
  induction l with
  | nil => simp
  | cons f l ih =>
    have hf := h f (List.mem_cons_self _ _)
    have hl : ∀ g ∈ l, (ts g).isSome ∧ (os g).isSome :=
      fun g hg => h g (List.mem_cons_of_mem _ hg)
    obtain ⟨x, hx⟩ := Option.isSome_iff_exists.mp hf.1
    obtain ⟨y, hy⟩ := Option.isSome_iff_exists.mp hf.2
    simp only [List.countP_cons, List.length_cons]
    rw [ih hl]
    rcases lt_trichotomy x y with hxy | hxy | hxy <;>
      simp [scoreGt, scoreEq, scoreLt, hx, hy, hxy, Int.ne_of_lt, Int.ne_of_gt,
        not_lt_of_gt, le_of_lt] <;> omega

/-! ## C1 -/

/-- C1 counterexample: a current-season fixture with non-null current scores
but `mapping_found = false` contributes nothing to the current-view table —
the aggregation returns an empty standings list, not one-game rows for
Arsenal and Chelsea as the claim states. -/
theorem c1_counterexample :
    exUnmapped.mapping_found = false ∧
    exUnmapped.current_home_score = some 2 ∧
    exUnmapped.current_away_score = some 1 ∧
    calculate_team_performance [exUnmapped] ViewType.current = [] := by
  decide

/-- C1 (amended): the `mapping_found = true` filter applies to the current
view as well as the comparison view, so removing every fixture with
`mapping_found = false` leaves either view's standings table unchanged —
such fixtures contribute to neither view. -/
theorem c1_theorem (mf : List MappedFixture) (v : ViewType) :
    calculate_team_performance (mf.filter (fun f => f.mapping_found)) v =
      calculate_team_performance mf v := by
  have h : validFixtures v (mf.filter (fun f => f.mapping_found)) = validFixtures v mf := by
    unfold validFixtures
    rw [List.filter_filter]
    apply List.filter_congr
    intro a _
    cases h : a.mapping_found <;> simp [h]
  unfold calculate_team_performance
  rw [h]

/-! ## C4 -/

/-- C4: in every standings table produced by the aggregation, each team's
`goal_difference` equals `goals_for - goals_against`, for every input and
both views. -/
theorem c4_theorem (mf : List MappedFixture) (v : ViewType) (s : TeamStanding)
    (h : s ∈ calculate_team_performance mf v) :
    s.goal_difference = s.goals_for - s.goals_against := by
  unfold calculate_team_performance at h
  simp only [List.mem_map] at h
  obtain ⟨t, -, rfl⟩ := h
  rfl

/-- C4 witness: the invariant checked on Arsenal's standing from the worked
scenario. -/
theorem c4_witness :
    exArsenalStanding ∈ calculate_team_performance exScenario ViewType.current ∧
    exArsenalStanding.goal_difference =
      exArsenalStanding.goals_for - exArsenalStanding.goals_against :=
  ⟨by decide, c4_theorem exScenario ViewType.current exArsenalStanding (by decide)⟩

/-! ## C10 -/

/-- C10: in every standings table produced by the aggregation, each team's
`games_played` equals `wins + draws + losses`: null-score fixtures are
filtered out first, so every qualifying fixture is classified as exactly one
of win, draw, or loss for each participant. -/
theorem c10_theorem (mf : List MappedFixture) (v : ViewType) (s : TeamStanding)
    (h : s ∈ calculate_team_performance mf v) :
    s.games_played = s.wins + s.draws + s.losses := by
  unfold calculate_team_performance at h
  simp only [List.mem_map] at h
  obtain ⟨t, -, rfl⟩ := h
  have hvalid : ∀ f ∈ validFixtures v mf,
      (viewHomeScore v f).isSome = true ∧ (viewAwayScore v f).isSome = true :=
    fun f hf => (mem_validFixtures hf).2
  simp only [teamPerformanceRow, calcFixturesStats]
  have hhome : ∀ f ∈ (validFixtures v mf).filter (fun f => viewHomeTeam v f == t),
      (viewHomeScore v f).isSome ∧ (viewAwayScore v f).isSome :=
    fun f hf => hvalid f (List.mem_of_mem_filter hf)
  have haway : ∀ f ∈ (validFixtures v mf).filter (fun f => viewAwayTeam v f == t),
      (viewAwayScore v f).isSome ∧ (viewHomeScore v f).isSome :=
    fun f hf => (hvalid f (List.mem_of_mem_filter hf)).symm
  have h1 := length_eq_wdl _ _ _ hhome
  have h2 := length_eq_wdl _ _ _ haway
  omega

/-- C10 witness: the invariant checked on Arsenal's standing from the worked
scenario. -/
theorem c10_witness :
    exArsenalStanding ∈ calculate_team_performance exScenario ViewType.current ∧
    exArsenalStanding.games_played =
      exArsenalStanding.wins + exArsenalStanding.draws + exArsenalStanding.losses :=
  ⟨by decide, c10_theorem exScenario ViewType.current exArsenalStanding (by decide)⟩

/-! ## C3: points conservation -/

/-- Points one side earns from one fixture (3 for a win, 1 for a draw). -/
def ptsOf (a b : Option Int) : Nat :=
  if scoreGt a b then 3 else if scoreEq a b then 1 else 0

theorem scoreGt_irrefl_eq (a b : Option Int) (h : scoreGt a b = true) :
    scoreEq a b = false := by
  cases a <;> cases b <;> simp_all [scoreGt, scoreEq]
  omega

theorem countP_points (l : List MappedFixture) (ts os : MappedFixture → Option Int) :
    l.countP (fun f => scoreGt (ts f) (os f)) * 3
      + l.countP (fun f => scoreEq (ts f) (os f)) * 1
      = (l.map (fun f => ptsOf (ts f) (os f))).sum := by
  induction l with
  | nil => rfl
  | cons f l ih =>
    rw [List.countP_cons, List.countP_cons, List.map_cons, List.sum_cons]
    by_cases hg : scoreGt (ts f) (os f) = true
    · have he : scoreEq (ts f) (os f) = false := scoreGt_irrefl_eq _ _ hg
      have hp : ptsOf (ts f) (os f) = 3 := by rw [ptsOf, if_pos hg]
      rw [hp, if_pos hg, if_neg (by simp [he]), ← ih]
      omega
    · by_cases he : scoreEq (ts f) (os f) = true
      · have hp : ptsOf (ts f) (os f) = 1 := by rw [ptsOf, if_neg hg, if_pos he]
        rw [hp, if_neg hg, if_pos he, ← ih]
        omega
      · have hp : ptsOf (ts f) (os f) = 0 := by rw [ptsOf, if_neg hg, if_neg he]
        rw [hp, if_neg hg, if_neg he, ← ih]
        omega

theorem calcFixturesStats_points (l : List MappedFixture)
    (ts os : MappedFixture → Option Int) :
    (calcFixturesStats l ts os).points = (l.map (fun f => ptsOf (ts f) (os f))).sum :=
  countP_points l ts os

theorem sum_map_addN {α : Type} (l : List α) (f g : α → Nat) :
    (l.map (fun x => f x + g x)).sum = (l.map f).sum + (l.map g).sum := by
  induction l with
  | nil => rfl
  | cons x l ih => simp only [List.map_cons, List.sum_cons, ih]; omega

theorem sum_ite_key_not (ts : List String) (a : String) (c : Nat) (ha : a ∉ ts) :
    (ts.map (fun t => if a == t then c else 0)).sum = 0 := by
  induction ts with
  | nil => rfl
  | cons t ts ih =>
    have hat : (a == t) = false :=
      beq_eq_false_iff_ne.mpr (fun h => ha (h ▸ List.mem_cons_self _ _))
    rw [List.map_cons, List.sum_cons, if_neg (by simp [hat]),
      ih (fun h => ha (List.mem_cons_of_mem _ h))]

theorem sum_ite_key (ts : List String) (a : String) (c : Nat) (hnd : ts.Nodup)
    (ha : a ∈ ts) :
    (ts.map (fun t => if a == t then c else 0)).sum = c := by
  induction ts with
  | nil => cases ha
  | cons t ts ih =>
    rcases List.mem_cons.mp ha with h | h
    · subst h
      rw [List.map_cons, List.sum_cons, if_pos (by simp),
        sum_ite_key_not ts a c (List.nodup_cons.mp hnd).1]
      omega
    · have hat : (a == t) = false :=
        beq_eq_false_iff_ne.mpr (fun he => (List.nodup_cons.mp hnd).1 (he ▸ h))
      rw [List.map_cons, List.sum_cons, if_neg (by simp [hat]),
        ih (List.nodup_cons.mp hnd).2 h]
      omega

theorem sum_fiber {β : Type} (key : β → String) (g : β → Nat) (ts : List String)
    (l : List β) (hnd : ts.Nodup) (hcov : ∀ f ∈ l, key f ∈ ts) :
    (ts.map (fun t => ((l.filter (fun f => key f == t)).map g).sum)).sum
      = (l.map g).sum := by
  induction l with
  | nil => simp
  | cons f l ih =>
    have hcov2 : ∀ x ∈ l, key x ∈ ts := fun x hx => hcov x (List.mem_cons_of_mem _ hx)
    have hstep : (fun t => (((f :: l).filter (fun x => key x == t)).map g).sum)
        = fun t => (if key f == t then g f else 0)
            + ((l.filter (fun x => key x == t)).map g).sum := by
      funext t
      rw [List.filter_cons]
      by_cases h : (key f == t) = true <;> simp [h]
    rw [hstep, sum_map_addN, sum_ite_key ts (key f) (g f) hnd (hcov f (List.mem_cons_self _ _)),
      ih hcov2, List.map_cons, List.sum_cons]

theorem ptsOf_add (a b : Option Int) (ha : a.isSome = true) (hb : b.isSome = true) :
    ptsOf a b + ptsOf b a = if scoreEq a b = true then 2 else 3 := by
  obtain ⟨x, rfl⟩ := Option.isSome_iff_exists.mp ha
  obtain ⟨y, rfl⟩ := Option.isSome_iff_exists.mp hb
  rcases lt_trichotomy x y with hxy | hxy | hxy <;>
    simp [ptsOf, scoreGt, scoreEq, hxy, Int.ne_of_lt, Int.ne_of_gt,
      not_lt_of_gt, le_of_lt]

theorem sum_if_drawn {β : Type} (l : List β) (p : β → Bool) :
    (l.map (fun f => if p f = true then 2 else 3)).sum
      = 3 * l.countP (fun f => !(p f)) + 2 * l.countP p := by
  induction l with
  | nil => rfl
  | cons f l ih =>
    simp only [List.map_cons, List.sum_cons, List.countP_cons, ih]
    by_cases h : p f = true <;> simp [h] <;> omega

/-- C3 counterexample: a single drawn qualifying fixture.  The aggregate
points sum is 2 (one point per side) while the spec's equation
`3 * decisive + drawn` evaluates to 1, so the stated equality fails. -/
theorem c3_counterexample :
    ¬ (((calculate_team_performance
          [mkMapped "Arsenal" "Chelsea" (some 1) (some 1) true (some 0) (some 0)]
          ViewType.current).map TeamStanding.points).sum
        = 3 * decisiveCount
            [mkMapped "Arsenal" "Chelsea" (some 1) (some 1) true (some 0) (some 0)]
            ViewType.current
          + drawnCount
            [mkMapped "Arsenal" "Chelsea" (some 1) (some 1) true (some 0) (some 0)]
            ViewType.current) := by
  decide

/-- C3 (amended): for every fixture set and either view, the sum of points
over the aggregated standings equals `3 * decisive + 2 * drawn` over the
qualifying fixtures — a drawn fixture contributes one point to each side,
hence two points to the total, not one. -/
theorem c3_theorem (mf : List MappedFixture) (v : ViewType) :
    ((calculate_team_performance mf v).map TeamStanding.points).sum
      = 3 * decisiveCount mf v + 2 * drawnCount mf v := by
  unfold calculate_team_performance decisiveCount drawnCount
  rw [List.map_map]
  have hrow : (TeamStanding.points ∘ teamPerformanceRow v (validFixtures v mf))
      = fun t =>
        (calcFixturesStats ((validFixtures v mf).filter (fun f => viewHomeTeam v f == t))
          (viewHomeScore v) (viewAwayScore v)).points
        + (calcFixturesStats ((validFixtures v mf).filter (fun f => viewAwayTeam v f == t))
          (viewAwayScore v) (viewHomeScore v)).points := by
    funext t
    rfl
  rw [hrow]
  have hsplit : (fun t =>
        (calcFixturesStats ((validFixtures v mf).filter (fun f => viewHomeTeam v f == t))
          (viewHomeScore v) (viewAwayScore v)).points
        + (calcFixturesStats ((validFixtures v mf).filter (fun f => viewAwayTeam v f == t))
          (viewAwayScore v) (viewHomeScore v)).points)
      = fun t =>
        (((validFixtures v mf).filter (fun f => viewHomeTeam v f == t)).map
          (fun f => ptsOf (viewHomeScore v f) (viewAwayScore v f))).sum
        + (((validFixtures v mf).filter (fun f => viewAwayTeam v f == t)).map
          (fun f => ptsOf (viewAwayScore v f) (viewHomeScore v f))).sum := by
    funext t
    rw [calcFixturesStats_points, calcFixturesStats_points]
  rw [hsplit, sum_map_addN]
  have hndt : (allTeams v (validFixtures v mf)).Nodup := List.nodup_dedup _
  have hcovh : ∀ f ∈ validFixtures v mf, viewHomeTeam v f ∈ allTeams v (validFixtures v mf) := by
    intro f hf
    unfold allTeams
    rw [List.mem_dedup, List.mem_append]
    exact Or.inl (List.mem_map_of_mem _ hf)
  have hcova : ∀ f ∈ validFixtures v mf, viewAwayTeam v f ∈ allTeams v (validFixtures v mf) := by
    intro f hf
    unfold allTeams
    rw [List.mem_dedup, List.mem_append]
    exact Or.inr (List.mem_map_of_mem _ hf)
  rw [sum_fiber (viewHomeTeam v) _ _ _ hndt hcovh,
    sum_fiber (viewAwayTeam v) _ _ _ hndt hcova,
    ← sum_map_addN]
  have hpt : ∀ f ∈ validFixtures v mf,
      ptsOf (viewHomeScore v f) (viewAwayScore v f)
        + ptsOf (viewAwayScore v f) (viewHomeScore v f)
      = if scoreEq (viewHomeScore v f) (viewAwayScore v f) = true then 2 else 3 := by
    intro f hf
    exact ptsOf_add _ _ (mem_validFixtures hf).2.1 (mem_validFixtures hf).2.2
  rw [List.map_congr_left hpt, sum_if_drawn]

/-! ## Merged-row helpers -/

theorem mem_addPositions {n : Nat} {l : List MergedRow} {r : ComparisonRow}
    (h : r ∈ addPositions n l) : ∃ m ∈ l, ∃ k, r = mkComparisonRow k m := by
  induction l generalizing n with
  | nil => cases h
  | cons m l ih =>
    rcases List.mem_cons.mp h with h | h
    · exact ⟨m, List.mem_cons_self _ _, n, h⟩
    · obtain ⟨m2, hm2, k, hk⟩ := ih h
      exact ⟨m2, List.mem_cons_of_mem _ hm2, k, hk⟩

theorem mem_merge_rows {cur comp : List TeamStanding} {r : ComparisonRow}
    (h : r ∈ merge_and_calculate_differences cur comp) :
    ∃ m : MergedRow, 0 < m.cur.wins + m.cur.draws + m.cur.losses ∧
      ∃ k, r = mkComparisonRow k m := by
  unfold merge_and_calculate_differences at h
  obtain ⟨m, hm, k, hk⟩ := mem_addPositions h
  rw [List.mem_insertionSort, List.mem_filter] at hm
  exact ⟨m, by simpa using hm.2, k, hk⟩

/-! ## C9 -/

/-- C9: for every merged output row, the percentage change equals
`points_difference / comparison.points * 100` when comparison points are
positive, and is `0` when comparison points are `0` (even if the difference
is nonzero); the division is never taken with a zero divisor. -/
theorem c9_theorem (cur comp : List TeamStanding) (r : ComparisonRow)
    (h : r ∈ merge_and_calculate_differences cur comp) :
    (0 < r.previous_points →
      r.points_percentage_change
        = (r.points_difference : ℚ) / (r.previous_points : ℚ) * 100)
    ∧ (r.previous_points = 0 → r.points_percentage_change = 0) := by
  obtain ⟨m, -, k, rfl⟩ := mem_merge_rows h
  simp only [mkComparisonRow]
  constructor
  · intro hp
    rw [if_pos hp]
    push_cast
    ring
  · intro hp
    rw [if_neg (by omega)]

/-- Current-season Arsenal standing for the C9 example (25 points). -/
def exCur9 : List TeamStanding :=
  [{ team := "Arsenal", games_played := 10, points := 25, goals_for := 30,
     goals_against := 15, goal_difference := 15, wins := 8, draws := 1, losses := 1 }]

/-- Comparison-season Arsenal standing for the C9 example (20 points). -/
def exComp9 : List TeamStanding :=
  [{ team := "Arsenal", games_played := 10, points := 20, goals_for := 25,
     goals_against := 20, goal_difference := 5, wins := 6, draws := 2, losses := 2 }]

/-- The merged row the C9 example produces. -/
def exMerged9 : MergedRow :=
  { team := "Arsenal", cur := exCur9.head (by simp [exCur9]),
    prev := exComp9.head (by simp [exComp9]) }

/-- C9 witness: with 25 current points against 20 comparison points the
guarded formula applies (and indeed yields 25%). -/
theorem c9_witness :
    mkComparisonRow 1 exMerged9 ∈ merge_and_calculate_differences exCur9 exComp9 ∧
    ((0 < (mkComparisonRow 1 exMerged9).previous_points →
      (mkComparisonRow 1 exMerged9).points_percentage_change
        = ((mkComparisonRow 1 exMerged9).points_difference : ℚ)
            / ((mkComparisonRow 1 exMerged9).previous_points : ℚ) * 100)
    ∧ ((mkComparisonRow 1 exMerged9).previous_points = 0 →
      (mkComparisonRow 1 exMerged9).points_percentage_change = 0)) :=
  ⟨List.mem_cons_self _ _,
   c9_theorem exCur9 exComp9 (mkComparisonRow 1 exMerged9) (List.mem_cons_self _ _)⟩

/-! ## C8 -/

/-- C8: `compare_seasons` never returns a row for a team with zero
current-season games: every output row has a positive current
wins+draws+losses count (comparison-only teams are zero-filled by the outer
join and then dropped). -/
theorem c8_theorem (cf pf : List Fixture) (st : List ChampionshipRow)
    (r : ComparisonRow) (h : r ∈ compare_seasons cf pf st) :
    0 < r.won + r.draw + r.lost := by
  unfold compare_seasons at h
  obtain ⟨m, hm, k, rfl⟩ := mem_merge_rows h
  simpa [mkComparisonRow] using hm

/-- The merged row produced by the C8 example pipeline for team A. -/
def exMerged8 : MergedRow :=
  { team := "A",
    cur := { team := "A", games_played := 1, points := 3, goals_for := 2,
             goals_against := 1, goal_difference := 1, wins := 1, draws := 0, losses := 0 },
    prev := { team := "A", games_played := 1, points := 3, goals_for := 1,
              goals_against := 0, goal_difference := 1, wins := 1, draws := 0, losses := 0 } }

/-- C8 witness: a two-team season pair where team A's row appears with one
current game. -/
theorem c8_witness :
    mkComparisonRow 1 exMerged8 ∈
      compare_seasons [mkFixture 1 "A" "B" (some 2) (some 1)]
        [mkFixture 2 "A" "B" (some 1) (some 0)] [] ∧
    0 < (mkComparisonRow 1 exMerged8).won + (mkComparisonRow 1 exMerged8).draw
        + (mkComparisonRow 1 exMerged8).lost :=
  ⟨List.mem_cons_self _ _,
   c8_theorem [mkFixture 1 "A" "B" (some 2) (some 1)]
     [mkFixture 2 "A" "B" (some 1) (some 0)] []
     (mkComparisonRow 1 exMerged8) (List.mem_cons_self _ _)⟩

/-! ## C5 -/

theorem addPositions_positions (l : List MergedRow) (n : Nat) :
    (addPositions n l).map ComparisonRow.league_position = List.range' n l.length := by
  induction l generalizing n with
  | nil => simp [addPositions]
  | cons m l ih =>
    rw [addPositions, List.map_cons, List.length_cons, List.range'_succ, ih]
    rfl

theorem chain'_addPositions {l : List MergedRow}
    (h : l.Pairwise (fun a b => b.cur.points ≤ a.cur.points)) (n : Nat) :
    (addPositions n l).Chain' (fun a b => b.points ≤ a.points) := by
  induction l generalizing n with
  | nil => exact List.chain'_nil
  | cons m l ih =>
    rw [List.pairwise_cons] at h
    cases l with
    | nil => exact List.chain'_singleton _
    | cons m2 l2 =>
      show List.Chain' _
        (mkComparisonRow n m :: mkComparisonRow (n + 1) m2 :: addPositions (n + 2) l2)
      rw [List.chain'_cons]
      exact ⟨h.1 m2 (List.mem_cons_self _ _), ih h.2 (n + 1)⟩

/-- C5: in every `compare_seasons` output the league positions are exactly
`1..N` in order, and current-season points are non-increasing down the
table: each row has at least as many points as the next. -/
theorem c5_theorem (cf pf : List Fixture) (st : List ChampionshipRow) :
    (compare_seasons cf pf st).map ComparisonRow.league_position
      = List.range' 1 (compare_seasons cf pf st).length
    ∧ (compare_seasons cf pf st).Chain' (fun a b => b.points ≤ a.points) := by
  have hlen : ∀ (l : List MergedRow) (n : Nat), (addPositions n l).length = l.length := by
    intro l
    induction l with
    | nil => intro n; rfl
    | cons m l ih => intro n; rw [addPositions, List.length_cons, List.length_cons, ih]
  haveI : IsTotal MergedRow (fun a b => b.cur.points ≤ a.cur.points) :=
    ⟨fun a b => le_total b.cur.points a.cur.points⟩
  haveI : IsTrans MergedRow (fun a b => b.cur.points ≤ a.cur.points) :=
    ⟨fun _ _ _ h1 h2 => le_trans h2 h1⟩
  constructor
  · show (addPositions 1 _).map _ = _
    rw [addPositions_positions]
    congr 1
    exact (hlen _ 1).symm
  · exact chain'_addPositions (List.sorted_insertionSort _ _) 1

/-! ## C6 -/

theorem find?_eq_some_first {α : Type} (p : α → Bool) (l : List α) (a : α)
    (h : l.find? p = some a) :
    ∃ j : Nat, l[j]? = some a ∧ p a = true ∧
      ∀ (k : Nat) (b : α), k < j → l[k]? = some b → p b = false := by
  induction l generalizing a with
  | nil => cases h
  | cons x l ih =>
    by_cases hx : p x = true
    · rw [List.find?_cons_of_pos _ hx] at h
      obtain rfl : x = a := by injection h
      exact ⟨0, by simp, hx, fun k b hk _ => absurd hk (Nat.not_lt_zero k)⟩
    · rw [List.find?_cons_of_neg _ (by simpa using hx)] at h
      obtain ⟨j, hj, hpa, hfirst⟩ := ih a h
      refine ⟨j + 1, by simpa using hj, hpa, ?_⟩
      intro k b hk hkb
      cases k with
      | zero =>
        obtain rfl : x = b := by simpa using hkb
        exact Bool.eq_false_iff.mpr hx
      | succ k2 =>
        exact hfirst k2 b (Nat.lt_of_succ_lt_succ hk) (by simpa using hkb)

theorem findEquivalentFixture_some {pf : List Fixture} {mh ma : String} {g : Fixture}
    (h : findEquivalentFixture pf mh ma = some g) :
    g ∈ pf ∧ ((g.home_team = mh ∧ g.away_team = ma)
      ∨ (g.home_team = ma ∧ g.away_team = mh)) := by
  unfold findEquivalentFixture at h
  cases hfind : pf.find? (fun f => f.home_team == mh && f.away_team == ma) with
  | some g0 =>
    rw [hfind] at h
    obtain rfl : g0 = g := by injection h
    refine ⟨List.mem_of_find?_eq_some hfind, Or.inl ?_⟩
    have := List.find?_some hfind
    simpa [Bool.and_eq_true] using this
  | none =>
    rw [hfind] at h
    refine ⟨List.mem_of_find?_eq_some h, Or.inr ?_⟩
    have := List.find?_some h
    simpa [Bool.and_eq_true] using this

/-- The per-fixture contract asserted by C6 at index `i` of the current
list: one output record per current fixture in the same position, current
fields copied through, teams substituted via the mapping (identity when
absent), comparison fields from the first exact `(home, away)` match, else
the first reversed match, else all-null with `mapping_found = false`. -/
def projectionContract (cf pf : List Fixture) (tm : List (String × String))
    (i : Nat) (f : Fixture) : Prop :=
  (map_fixtures cf pf tm).length = cf.length ∧
  ∃ r : MappedFixture, (map_fixtures cf pf tm)[i]? = some r ∧
    r.current_fixture_id = f.id ∧
    r.current_home_team = f.home_team ∧
    r.current_away_team = f.away_team ∧
    r.current_home_score = f.home_score ∧
    r.current_away_score = f.away_score ∧
    r.mapped_home_team = mappingGet tm f.home_team ∧
    r.mapped_away_team = mappingGet tm f.away_team ∧
    ((∀ p ∈ tm, p.1 ≠ f.home_team) → r.mapped_home_team = f.home_team) ∧
    ((∀ p ∈ tm, p.1 ≠ f.away_team) → r.mapped_away_team = f.away_team) ∧
    ((∀ g ∈ pf,
        ¬(g.home_team = r.mapped_home_team ∧ g.away_team = r.mapped_away_team) ∧
        ¬(g.home_team = r.mapped_away_team ∧ g.away_team = r.mapped_home_team)) →
      r.mapping_found = false ∧ r.comparison_fixture_id = none ∧
      r.comparison_matchday = none ∧ r.comparison_home_score = none ∧
      r.comparison_away_score = none) ∧
    (r.mapping_found = true →
      ∃ (j : Nat) (g : Fixture), pf[j]? = some g ∧ r.comparison_fixture_id = some g.id ∧
        r.comparison_matchday = g.matchday ∧
        r.comparison_home_score = g.home_score ∧
        r.comparison_away_score = g.away_score ∧
        ((g.home_team = r.mapped_home_team ∧ g.away_team = r.mapped_away_team ∧
          ∀ (k : Nat) (g2 : Fixture), k < j → pf[k]? = some g2 →
            ¬(g2.home_team = r.mapped_home_team ∧ g2.away_team = r.mapped_away_team))
        ∨ ((∀ g2 ∈ pf,
              ¬(g2.home_team = r.mapped_home_team ∧ g2.away_team = r.mapped_away_team)) ∧
           g.home_team = r.mapped_away_team ∧ g.away_team = r.mapped_home_team ∧
           ∀ (k : Nat) (g2 : Fixture), k < j → pf[k]? = some g2 →
             ¬(g2.home_team = r.mapped_away_team ∧ g2.away_team = r.mapped_home_team))))

theorem mappingGet_id (tm : List (String × String)) (k : String)
    (h : ∀ p ∈ tm, p.1 ≠ k) : mappingGet tm k = k := by
  unfold mappingGet
  rw [List.find?_eq_none.mpr (fun p hp => by simpa using h p hp)]

/-- C6: `map_fixtures` emits exactly one record per current-season fixture,
in current-season order; each record copies the current fixture's fields,
substitutes both teams through the mapping (identity when absent), joins the
first exact `(mapped_home, mapped_away)` comparison fixture, else the first
reversed `(mapped_away, mapped_home)` one, and otherwise is emitted with
`mapping_found = false` and null comparison fields rather than dropped. -/
theorem c6_theorem (cf pf : List Fixture) (tm : List (String × String))
    (i : Nat) (f : Fixture) (hf : cf[i]? = some f) :
    projectionContract cf pf tm i f := by
  unfold projectionContract
  refine ⟨List.length_map _ _, mapOneFixture pf tm f, ?_⟩
  have hget : (map_fixtures cf pf tm)[i]? = some (mapOneFixture pf tm f) := by
    unfold map_fixtures
    rw [List.getElem?_map, hf]
    rfl
  refine ⟨hget, ?_⟩
  cases hE : findEquivalentFixture pf (mappingGet tm f.home_team) (mappingGet tm f.away_team) with
  | none =>
    have hr : mapOneFixture pf tm f =
        { current_fixture_id := f.id, current_matchday := f.matchday,
          current_home_team := f.home_team, current_away_team := f.away_team,
          current_home_score := f.home_score, current_away_score := f.away_score,
          mapped_home_team := mappingGet tm f.home_team,
          mapped_away_team := mappingGet tm f.away_team,
          comparison_fixture_id := none, comparison_matchday := none,
          comparison_home_score := none, comparison_away_score := none,
          mapping_found := false } := by
      simp only [mapOneFixture]
      rw [hE]
    rw [hr]
    refine ⟨rfl, rfl, rfl, rfl, rfl, rfl, rfl, ?_, ?_, ?_, ?_⟩
    · exact fun h => mappingGet_id tm f.home_team h
    · exact fun h => mappingGet_id tm f.away_team h
    · exact fun _ => ⟨rfl, rfl, rfl, rfl, rfl⟩
    · intro hc
      cases hc
  | some g =>
    have hr : mapOneFixture pf tm f =
        { current_fixture_id := f.id, current_matchday := f.matchday,
          current_home_team := f.home_team, current_away_team := f.away_team,
          current_home_score := f.home_score, current_away_score := f.away_score,
          mapped_home_team := mappingGet tm f.home_team,
          mapped_away_team := mappingGet tm f.away_team,
          comparison_fixture_id := some g.id, comparison_matchday := g.matchday,
          comparison_home_score := g.home_score, comparison_away_score := g.away_score,
          mapping_found := true } := by
      simp only [mapOneFixture]
      rw [hE]
    rw [hr]
    refine ⟨rfl, rfl, rfl, rfl, rfl, rfl, rfl, ?_, ?_, ?_, ?_⟩
    · exact fun h => mappingGet_id tm f.home_team h
    · exact fun h => mappingGet_id tm f.away_team h
    · intro h
      obtain ⟨hmem, hdisj⟩ := findEquivalentFixture_some hE
      rcases hdisj with hd | hd
      · exact absurd hd (h g hmem).1
      · exact absurd hd (h g hmem).2
    · intro _
      unfold findEquivalentFixture at hE
      cases hfind : pf.find?
          (fun x => x.home_team == mappingGet tm f.home_team
            && x.away_team == mappingGet tm f.away_team) with
      | some g0 =>
        rw [hfind] at hE
        obtain rfl : g0 = g := by injection hE
        obtain ⟨j, hj, hpg, hfirst⟩ := find?_eq_some_first _ _ _ hfind
        refine ⟨j, g0, hj, rfl, rfl, rfl, rfl, Or.inl ?_⟩
        have hpg2 : g0.home_team = mappingGet tm f.home_team
            ∧ g0.away_team = mappingGet tm f.away_team := by
          simpa [Bool.and_eq_true] using hpg
        refine ⟨hpg2.1, hpg2.2, ?_⟩
        intro k g2 hk hkg
        have := hfirst k g2 hk hkg
        intro hcontra
        rw [hcontra.1, hcontra.2] at this
        simp at this
      | none =>
        rw [hfind] at hE
        obtain ⟨j, hj, hpg, hfirst⟩ := find?_eq_some_first _ _ _ hE
        have hnone : ∀ g2 ∈ pf,
            ¬(g2.home_team = mappingGet tm f.home_team
              ∧ g2.away_team = mappingGet tm f.away_team) := by
          intro g2 hg2 hcontra
          have := List.find?_eq_none.mp hfind g2 hg2
          rw [hcontra.1, hcontra.2] at this
          simp at this
        have hpg2 : g.home_team = mappingGet tm f.away_team
            ∧ g.away_team = mappingGet tm f.home_team := by
          simpa [Bool.and_eq_true] using hpg
        refine ⟨j, g, hj, rfl, rfl, rfl, rfl, Or.inr ⟨hnone, hpg2.1, hpg2.2, ?_⟩⟩
        intro k g2 hk hkg
        have := hfirst k g2 hk hkg
        intro hcontra
        rw [hcontra.1, hcontra.2] at this
        simp at this

/-- Current fixture of the C6 witness. -/
def exFix6 : Fixture := mkFixture 1 "A" "B" (some 1) (some 0)

/-- Comparison fixture of the C6 witness (reversed home/away orientation). -/
def exRev6 : Fixture := mkFixture 2 "B" "A" (some 2) (some 2)

/-- C6 witness: the projection contract at a one-fixture season whose only
comparison equivalent is the reversed leg. -/
theorem c6_witness :
    [exFix6][0]? = some exFix6 ∧ projectionContract [exFix6] [exRev6] [] 0 exFix6 :=
  ⟨by simp, c6_theorem [exFix6] [exRev6] [] 0 exFix6 (by simp)⟩

/-! ## C2 -/

theorem contains_true_iff {l : List String} {a : String} :
    l.contains a = true ↔ a ∈ l := List.elem_iff

theorem length_filter_split {α : Type} (p : α → Bool) (l : List α) :
    (l.filter p).length + (l.filter (fun x => !(p x))).length = l.length := by
  induction l with
  | nil => rfl
  | cons x l ih =>
    by_cases h : p x = true <;> simp [List.filter_cons, h] <;> omega

theorem length_filter_not_contains_eq (l ks : List String) (hl : l.Nodup)
    (hks : ks.Nodup) (hsub : ∀ k ∈ ks, k ∈ l) :
    (l.filter (fun x => !(ks.contains x))).length = l.length - ks.length := by
  have hsplit := length_filter_split (fun x => ks.contains x) l
  have hin : (l.filter (fun x => ks.contains x)).length = ks.length := by
    apply Nat.le_antisymm
    · have hnd : (l.filter (fun x => ks.contains x)).Nodup := hl.filter _
      have hss : (l.filter (fun x => ks.contains x)) ⊆ ks := fun x hx =>
        contains_true_iff.mp (List.of_mem_filter hx)
      exact (List.subperm_of_subset hnd hss).length_le
    · have hss : ks ⊆ l.filter (fun x => ks.contains x) := fun k hk =>
        List.mem_filter.mpr ⟨hsub k hk, contains_true_iff.mpr hk⟩
      exact (List.subperm_of_subset hks hss).length_le
  omega

theorem length_filter_not_contains_ge (l vs : List String) (hl : l.Nodup) :
    l.length - vs.length ≤ (l.filter (fun x => !(vs.contains x))).length := by
  have hsplit := length_filter_split (fun x => vs.contains x) l
  have hle2 : (l.filter (fun x => vs.contains x)).length ≤ vs.length := by
    have hnd : (l.filter (fun x => vs.contains x)).Nodup := hl.filter _
    have hss : (l.filter (fun x => vs.contains x)) ⊆ vs := fun x hx =>
      contains_true_iff.mp (List.of_mem_filter hx)
    exact (List.subperm_of_subset hnd hss).length_le
  omega

theorem dictInsert_keys (m : List (String × String)) (k v : String) :
    (dictInsert m k v).map Prod.fst =
      if m.any (fun p => p.1 == k) then m.map Prod.fst else m.map Prod.fst ++ [k] := by
  unfold dictInsert
  by_cases h : m.any (fun p => p.1 == k) = true
  · rw [if_pos h, if_pos h, List.map_map]
    apply List.map_congr_left
    intro p _
    simp only [Function.comp_apply]
    by_cases hp : (p.1 == k) = true
    · rw [if_pos hp]
      exact (eq_of_beq hp).symm
    · rw [if_neg hp]
  · rw [if_neg h, if_neg h, List.map_append]
    rfl

theorem champAssign_keys_nodup (rel : List String) (todo : List (Nat × String)) :
    ∀ (i : Nat) (m : List (String × String)),
      (m.map Prod.fst).Nodup → ((champAssign rel i todo m).map Prod.fst).Nodup := by
  induction todo with
  | nil => intro i m hm; exact hm
  | cons x rest ih =>
    intro i m hm
    obtain ⟨pos, p⟩ := x
    show ((champAssign rel (i + 1) rest _).map Prod.fst).Nodup
    apply ih
    by_cases hi : i < rel.length
    · rw [if_pos hi, dictInsert_keys]
      by_cases ha : m.any (fun q => q.1 == p) = true
      · rw [if_pos ha]; exact hm
      · rw [if_neg ha, List.nodup_append]
        refine ⟨hm, List.nodup_singleton _, ?_⟩
        intro a hma hsing
        rw [List.mem_singleton] at hsing
        subst hsing
        rw [Bool.not_eq_true, List.any_eq_false] at ha
        obtain ⟨q, hq, hfst⟩ := List.mem_map.mp hma
        exact ha q hq (by rw [hfst]; exact beq_self_eq_true _)
    · rw [if_neg hi]; exact hm

theorem champAssign_keys_sub (rel : List String) (P : List String)
    (todo : List (Nat × String)) :
    ∀ (i : Nat) (m : List (String × String)),
      (∀ k ∈ m.map Prod.fst, k ∈ P) → (∀ x ∈ todo, x.2 ∈ P) →
      ∀ k ∈ (champAssign rel i todo m).map Prod.fst, k ∈ P := by
  induction todo with
  | nil => intro i m hm _; exact hm
  | cons x rest ih =>
    intro i m hm htodo
    obtain ⟨pos, p⟩ := x
    show ∀ k ∈ (champAssign rel (i + 1) rest _).map Prod.fst, k ∈ P
    apply ih
    · by_cases hi : i < rel.length
      · rw [if_pos hi, dictInsert_keys]
        by_cases ha : m.any (fun q => q.1 == p) = true
        · rw [if_pos ha]; exact hm
        · rw [if_neg ha]
          intro k hk
          rcases List.mem_append.mp hk with hk | hk
          · exact hm k hk
          · rw [List.mem_singleton] at hk
            rw [hk]
            exact htodo (pos, p) (List.mem_cons_self _ _)
      · rw [if_neg hi]; exact hm
    · intro y hy
      exact htodo y (List.mem_cons_of_mem _ hy)

theorem match_team_name_mem {n : String} {teams : List String} {t : String}
    (h : match_team_name n teams = some t) : t ∈ teams := by
  unfold match_team_name at h
  by_cases hc : teams.contains n = true
  · rw [if_pos hc] at h
    injection h with h2
    subst h2
    exact contains_true_iff.mp hc
  · rw [if_neg hc] at h
    cases hfind : name_mappings.find? (fun p => p.1 == n) with
    | some p =>
      simp only [hfind] at h
      by_cases hc2 : teams.contains p.2 = true
      · rw [if_pos hc2] at h
        injection h with h2
        subst h2
        exact contains_true_iff.mp hc2
      · rw [if_neg hc2] at h
        exact List.mem_of_find?_eq_some h
    | none =>
      simp only [hfind] at h
      exact List.mem_of_find?_eq_some h

theorem champMatched_mem_snd {P : List String} {st : List ChampionshipRow}
    {x : Nat × String} (hx : x ∈ champMatched P st) : x.2 ∈ P := by
  unfold champMatched at hx
  rw [List.mem_insertionSort] at hx
  obtain ⟨row, hrow, hmap⟩ := List.mem_filterMap.mp hx
  cases hm : match_team_name row.team_name P with
  | none => rw [hm] at hmap; cases hmap
  | some u =>
    rw [hm] at hmap
    injection hmap with h2
    subst h2
    exact match_team_name_mem hm

theorem champBase_keys_nodup (P R : List String) (st : List ChampionshipRow) :
    ((champBase P R st).map Prod.fst).Nodup := by
  unfold champBase
  by_cases hc : st ≠ [] ∧ P.length = R.length
  · rw [if_pos hc]
    exact champAssign_keys_nodup _ _ 0 [] List.nodup_nil
  · rw [if_neg hc]
    exact List.nodup_nil

theorem champBase_keys_sub (P R : List String) (st : List ChampionshipRow) :
    ∀ k ∈ (champBase P R st).map Prod.fst, k ∈ P := by
  unfold champBase
  by_cases hc : st ≠ [] ∧ P.length = R.length
  · rw [if_pos hc]
    refine champAssign_keys_sub _ P _ 0 [] (by intro k hk; cases hk) ?_
    intro x hx
    exact champMatched_mem_snd hx
  · rw [if_neg hc]
    intro k hk
    cases hk

theorem mapping_keys_cover (P R : List String) (st : List ChampionshipRow) (t : String)
    (hPnd : P.Nodup) (hRnd : R.Nodup) (hp : t ∈ P) (hle : P.length ≤ R.length) :
    t ∈ ((champBase P R st
      ++ ((lexSort (P.filter (fun x => !(((champBase P R st).map Prod.fst).contains x)))).zip
          (lexSort (R.filter (fun x => !(((champBase P R st).map Prod.snd).contains x)))))).map
        Prod.fst) := by
  have hkeys_nodup := champBase_keys_nodup P R st
  have hkeys_sub := champBase_keys_sub P R st
  rw [List.map_append, List.mem_append]
  by_cases hk : t ∈ (champBase P R st).map Prod.fst
  · exact Or.inl hk
  · right
    have hrp := length_filter_not_contains_eq P ((champBase P R st).map Prod.fst)
      hPnd hkeys_nodup hkeys_sub
    have hrr := length_filter_not_contains_ge R ((champBase P R st).map Prod.snd) hRnd
    have hkP : ((champBase P R st).map Prod.fst).length ≤ P.length :=
      (List.subperm_of_subset hkeys_nodup hkeys_sub).length_le
    have hkv : ((champBase P R st).map Prod.fst).length
        = ((champBase P R st).map Prod.snd).length := by
      rw [List.length_map, List.length_map]
    have hlen : (lexSort (P.filter
          (fun x => !(((champBase P R st).map Prod.fst).contains x)))).length
        ≤ (lexSort (R.filter
          (fun x => !(((champBase P R st).map Prod.snd).contains x)))).length := by
      unfold lexSort
      rw [List.length_insertionSort, List.length_insertionSort]
      omega
    rw [List.map_fst_zip _ _ hlen]
    unfold lexSort
    rw [List.mem_insertionSort]
    refine List.mem_filter.mpr ⟨hp, ?_⟩
    rw [Bool.not_eq_true']
    exact Bool.eq_false_iff.mpr (fun hc => hk (contains_true_iff.mp hc))

/-- C2 counterexample: current fixtures contribute teams `{B, C}`, comparison
fixtures only `{B}`, so `promoted = {C}` and `relegated = {}`; the
lexicographic `zip` fallback pairs nothing and the promoted team `C` is
omitted from the mapping, which comes back empty. -/
theorem c2_counterexample :
    "C" ∈ setDiff (seasonTeams [mkFixture 1 "B" "C" none none])
        (seasonTeams [mkFixture 2 "B" "B" none none]) ∧
    create_team_mapping [mkFixture 1 "B" "C" none none]
      [mkFixture 2 "B" "B" none none] [] = [] := by
  decide

/-- C2 (amended): `build_mapping` is a total function (never raises), and its
substitution mapping covers every promoted team whenever there are at most as
many promoted teams as relegated teams; with strictly more promoted than
relegated teams the `zip` fallback truncates and the excess promoted teams
are omitted. -/
theorem c2_theorem (cf pf : List Fixture) (st : List ChampionshipRow) (t : String)
    (hp : t ∈ setDiff (seasonTeams cf) (seasonTeams pf))
    (hle : (setDiff (seasonTeams cf) (seasonTeams pf)).length
      ≤ (setDiff (seasonTeams pf) (seasonTeams cf)).length) :
    t ∈ (create_team_mapping cf pf st).map Prod.fst := by
  have hPnd : (setDiff (seasonTeams cf) (seasonTeams pf)).Nodup :=
    (List.nodup_dedup _).filter _
  have hRnd : (setDiff (seasonTeams pf) (seasonTeams cf)).Nodup :=
    (List.nodup_dedup _).filter _
  have hne : ¬(setDiff (seasonTeams cf) (seasonTeams pf) = []
      ∧ setDiff (seasonTeams pf) (seasonTeams cf) = []) := by
    rintro ⟨h1, -⟩
    rw [h1] at hp
    cases hp
  simp only [create_team_mapping]
  rw [if_neg hne]
  exact mapping_keys_cover _ _ st t hPnd hRnd hp hle

/-- C2 witness: one promoted and one relegated team; the promoted team B is
mapped (to C) by the lexicographic fallback. -/
theorem c2_witness :
    "B" ∈ setDiff (seasonTeams [mkFixture 1 "A" "B" none none])
        (seasonTeams [mkFixture 2 "A" "C" none none]) ∧
    (setDiff (seasonTeams [mkFixture 1 "A" "B" none none])
        (seasonTeams [mkFixture 2 "A" "C" none none])).length
      ≤ (setDiff (seasonTeams [mkFixture 2 "A" "C" none none])
        (seasonTeams [mkFixture 1 "A" "B" none none])).length ∧
    "B" ∈ (create_team_mapping [mkFixture 1 "A" "B" none none]
        [mkFixture 2 "A" "C" none none] []).map Prod.fst :=
  ⟨by decide, by decide,
   c2_theorem [mkFixture 1 "A" "B" none none] [mkFixture 2 "A" "C" none none] []
     "B" (by decide) (by decide)⟩

/-! ## C7 -/

/-- Modelled from the spec: the claimed resolution step takes the top
`|promoted|` finishers of the standings signal ("take the top-`|promoted|`
finishers from that signal") instead of the code's fixed `head(3)`. -/
def champMatchedClaimed (promoted : List String) (standings : List ChampionshipRow) :
    List (Nat × String) :=
  List.insertionSort (fun a b : Nat × String => a.1 ≤ b.1)
    ((standings.take promoted.length).filterMap
      (fun row => (match_team_name row.team_name promoted).map (fun u => (row.position, u))))

/-- Modelled from the spec: `champBase` with the claimed top-`|promoted|`
slice. -/
def champBaseClaimed (promoted relegated : List String)
    (standings : List ChampionshipRow) : List (String × String) :=
  if standings ≠ [] ∧ promoted.length = relegated.length then
    champAssign (lexSort relegated) 0 (champMatchedClaimed promoted standings) []
  else []

/-- Modelled from the spec: the mapping TeamMapper would build under C7's
description — identical to `create_team_mapping` except for the
top-`|promoted|` slice of the standings signal. -/
def create_team_mapping_claimed (current_fixtures comparison_fixtures : List Fixture)
    (championship_standings : List ChampionshipRow) : List (String × String) :=
  let current_teams := seasonTeams current_fixtures
  let comparison_teams := seasonTeams comparison_fixtures
  let promoted := setDiff current_teams comparison_teams
  let relegated := setDiff comparison_teams current_teams
  if promoted = [] ∧ relegated = [] then []
  else
    let base := champBaseClaimed promoted relegated championship_standings
    let remaining_promoted := promoted.filter (fun t => !((base.map Prod.fst).contains t))
    let remaining_relegated := relegated.filter (fun t => !((base.map Prod.snd).contains t))
    base ++ ((lexSort remaining_promoted).zip (lexSort remaining_relegated))

/-- Current fixtures of the C7 example: promoted teams P1-P4. -/
def exCf7 : List Fixture :=
  [mkFixture 1 "P1" "P2" none none, mkFixture 2 "P3" "P4" none none]

/-- Comparison fixtures of the C7 example: relegated teams R1-R4. -/
def exPf7 : List Fixture :=
  [mkFixture 3 "R1" "R2" none none, mkFixture 4 "R3" "R4" none none]

/-- Standings signal of the C7 example: an unmatched leader, then P1, P2,
P3; P4 finishes outside the listed rows. -/
def exSt7 : List ChampionshipRow :=
  [⟨1, "Xx"⟩, ⟨2, "P1"⟩, ⟨3, "P2"⟩, ⟨4, "P3"⟩]

/-- C7 counterexample: with four promoted and four relegated teams, the
code's fixed `head(3)` slice resolves only P1 and P2 through the standings
signal and sends P3, P4 through the lexicographic fallback (P3↦R1, P4↦R2),
while the claimed top-`|promoted|` slice also resolves P3 (P3↦R2, P4↦R1) —
so the mapping the claim describes differs from the one the code builds. -/
theorem c7_counterexample :
    create_team_mapping exCf7 exPf7 exSt7
      = [("P1", "R4"), ("P2", "R3"), ("P3", "R1"), ("P4", "R2")] ∧
    create_team_mapping_claimed exCf7 exPf7 exSt7
      = [("P1", "R4"), ("P2", "R3"), ("P3", "R2"), ("P4", "R1")] ∧
    create_team_mapping exCf7 exPf7 exSt7
      ≠ create_team_mapping_claimed exCf7 exPf7 exSt7 := by
  decide

theorem not_eq_true_of_false {b : Bool} (h : b = false) : ¬b = true := by
  rw [h]
  exact Bool.false_ne_true

theorem find?_map_keyEq (m : List (String × String)) (k v t : String) (h : t ≠ k) :
    (m.map (fun p => if p.1 == k then (k, v) else p)).find? (fun p => p.1 == t)
      = m.find? (fun p => p.1 == t) := by
  induction m with
  | nil => rfl
  | cons q m ih =>
    rw [List.map_cons]
    by_cases hq : (q.1 == k) = true
    · have h1 : (((if q.1 == k then (k, v) else q) : String × String).1 == t) = false := by
        rw [if_pos hq]
        exact beq_eq_false_iff_ne.mpr (fun he => h he.symm)
      have h2 : (q.1 == t) = false :=
        beq_eq_false_iff_ne.mpr (fun he => h (he.symm.trans (eq_of_beq hq)))
      rw [List.find?_cons_of_neg (p := fun x : String × String => x.1 == t) _ (not_eq_true_of_false h1),
        List.find?_cons_of_neg (p := fun x : String × String => x.1 == t) _ (not_eq_true_of_false h2)]
      exact ih
    · rw [if_neg hq]
      by_cases hqt : (q.1 == t) = true
      · rw [List.find?_cons_of_pos (p := fun x : String × String => x.1 == t) _ hqt,
          List.find?_cons_of_pos (p := fun x : String × String => x.1 == t) _ hqt]
      · rw [List.find?_cons_of_neg (p := fun x : String × String => x.1 == t) _ (not_eq_true_of_false
            (Bool.not_eq_true _ ▸ hqt)),
          List.find?_cons_of_neg (p := fun x : String × String => x.1 == t) _ (not_eq_true_of_false
            (Bool.not_eq_true _ ▸ hqt))]
        exact ih

theorem dictLookup_dictInsert_ne (m : List (String × String)) (k v t : String)
    (h : t ≠ k) : dictLookup (dictInsert m k v) t = dictLookup m t := by
  unfold dictLookup dictInsert
  by_cases ha : m.any (fun p => p.1 == k) = true
  · rw [if_pos ha, find?_map_keyEq m k v t h]
  · rw [if_neg ha, List.find?_append]
    have h1 : ([((k, v))].find? (fun p => p.1 == t)) = none := by
      rw [List.find?_eq_none]
      intro x hx
      rw [List.mem_singleton] at hx
      subst hx
      exact fun hc => h (eq_of_beq hc).symm
    rw [h1]
    cases m.find? (fun p => p.1 == t) <;> rfl

theorem find?_map_overwrite (m : List (String × String)) (k v : String)
    (ha : m.any (fun p => p.1 == k) = true) :
    (m.map (fun p => if p.1 == k then (k, v) else p)).find? (fun p => p.1 == k)
      = some (k, v) := by
  induction m with
  | nil => cases ha
  | cons q m ih =>
    rw [List.map_cons]
    by_cases hq : (q.1 == k) = true
    · rw [if_pos hq]
      exact List.find?_cons_of_pos (p := fun x : String × String => x.1 == k) _ (beq_self_eq_true k)
    · rw [if_neg hq, List.find?_cons_of_neg (p := fun x : String × String => x.1 == k) _ hq]
      exact ih (by simpa [hq] using ha)

theorem dictLookup_dictInsert_self (m : List (String × String)) (k v : String) :
    dictLookup (dictInsert m k v) k = some v := by
  unfold dictLookup dictInsert
  by_cases ha : m.any (fun p => p.1 == k) = true
  · rw [if_pos ha, find?_map_overwrite m k v ha]
    rfl
  · rw [if_neg ha, List.find?_append]
    have h0 : m.find? (fun p => p.1 == k) = none := by
      rw [List.find?_eq_none]
      intro x hx hc
      rw [Bool.not_eq_true, List.any_eq_false] at ha
      exact ha x hx hc
    rw [h0, List.find?_cons_of_pos (p := fun x : String × String => x.1 == k) _ (beq_self_eq_true k)]
    rfl

theorem champAssign_lookup_not_mem (rel : List String) (todo : List (Nat × String)) :
    ∀ (i : Nat) (m : List (String × String)) (t : String),
      (∀ x ∈ todo, x.2 ≠ t) →
      dictLookup (champAssign rel i todo m) t = dictLookup m t := by
  induction todo with
  | nil => intro i m t _; rfl
  | cons x rest ih =>
    intro i m t hx
    obtain ⟨pos, p⟩ := x
    show dictLookup (champAssign rel (i + 1) rest _) t = _
    rw [ih (i + 1) _ t (fun y hy => hx y (List.mem_cons_of_mem _ hy))]
    by_cases hi : i < rel.length
    · rw [if_pos hi]
      exact dictLookup_dictInsert_ne _ _ _ _
        (fun he => hx (pos, p) (List.mem_cons_self _ _) he.symm)
    · rw [if_neg hi]

theorem champAssign_lookup_at (rel : List String) (todo : List (Nat × String)) :
    ∀ (i0 j : Nat) (m : List (String × String)) (t : String) (hj : j < todo.length),
      (todo.get ⟨j, hj⟩).2 = t →
      (todo.map Prod.snd).Nodup →
      i0 + j < rel.length →
      dictLookup (champAssign rel i0 todo m) t
        = some (rel.getD (rel.length - 1 - (i0 + j)) "") := by
  induction todo with
  | nil =>
    intro i0 j m t hj
    exact absurd hj (Nat.not_lt_zero j)
  | cons x rest ih =>
    intro i0 j m t hj ht hnd hguard
    obtain ⟨pos, p⟩ := x
    show dictLookup (champAssign rel (i0 + 1) rest _) t = _
    cases j with
    | zero =>
      obtain rfl : p = t := ht
      have hrest : ∀ y ∈ rest, y.2 ≠ p := by
        intro y hy he
        rw [List.map_cons, List.nodup_cons] at hnd
        have hmem : y.2 ∈ rest.map Prod.snd := List.mem_map_of_mem Prod.snd hy
        rw [he] at hmem
        exact hnd.1 hmem
      rw [champAssign_lookup_not_mem rel rest (i0 + 1) _ p hrest]
      have hi : i0 < rel.length := by omega
      rw [if_pos hi, dictLookup_dictInsert_self, Nat.add_zero]
    | succ j2 =>
      have hj2 : j2 < rest.length := Nat.lt_of_succ_lt_succ hj
      have ht2 : (rest.get ⟨j2, hj2⟩).2 = t := ht
      have hnd2 : (rest.map Prod.snd).Nodup := by
        rw [List.map_cons, List.nodup_cons] at hnd
        exact hnd.2
      rw [ih (i0 + 1) j2 _ t hj2 ht2 hnd2 (by omega)]
      rw [show i0 + 1 + j2 = i0 + (j2 + 1) from by omega]

theorem dictLookup_append_left (m1 m2 : List (String × String)) (t v : String)
    (h : dictLookup m1 t = some v) : dictLookup (m1 ++ m2) t = some v := by
  unfold dictLookup at h ⊢
  rw [List.find?_append]
  cases hf : m1.find? (fun p => p.1 == t) with
  | none => rw [hf] at h; cases h
  | some q =>
    rw [hf] at h
    exact h

/-- C7 (amended): when the standings signal is non-empty and
`|promoted| = |relegated|`, TeamMapper takes the **top-3** rows of the
signal (regardless of `|promoted|`), orders the resolved promoted teams by
their final standing (best first), sorts the relegated set
lexicographically, and pairs resolved rank `j` (best first) with the element
at rank `j` counted from the end of the sorted relegated list — provided the
resolved teams are pairwise distinct and rank `j` is within the relegated
count. -/
theorem c7_theorem (cf pf : List Fixture) (st : List ChampionshipRow)
    (j : Nat) (t : String)
    (hst : st ≠ [])
    (hlen : (setDiff (seasonTeams cf) (seasonTeams pf)).length
      = (setDiff (seasonTeams pf) (seasonTeams cf)).length)
    (hnd : ((champMatched (setDiff (seasonTeams cf) (seasonTeams pf)) st).map
      Prod.snd).Nodup)
    (hj : j < (champMatched (setDiff (seasonTeams cf) (seasonTeams pf)) st).length)
    (ht : ((champMatched (setDiff (seasonTeams cf) (seasonTeams pf)) st).get
      ⟨j, hj⟩).2 = t)
    (hguard : j < (setDiff (seasonTeams pf) (seasonTeams cf)).length) :
    dictLookup (create_team_mapping cf pf st) t
      = some ((lexSort (setDiff (seasonTeams pf) (seasonTeams cf))).getD
          ((setDiff (seasonTeams pf) (seasonTeams cf)).length - 1 - j) "") := by
  have htP : t ∈ setDiff (seasonTeams cf) (seasonTeams pf) := by
    rw [← ht]
    exact champMatched_mem_snd (List.get_mem _ _ _)
  have hne : ¬(setDiff (seasonTeams cf) (seasonTeams pf) = []
      ∧ setDiff (seasonTeams pf) (seasonTeams cf) = []) := by
    rintro ⟨h1, -⟩
    rw [h1] at htP
    cases htP
  have hbase : dictLookup (champBase (setDiff (seasonTeams cf) (seasonTeams pf))
      (setDiff (seasonTeams pf) (seasonTeams cf)) st) t
      = some ((lexSort (setDiff (seasonTeams pf) (seasonTeams cf))).getD
          ((setDiff (seasonTeams pf) (seasonTeams cf)).length - 1 - j) "") := by
    unfold champBase
    rw [if_pos ⟨hst, hlen⟩]
    have hrl : (lexSort (setDiff (seasonTeams pf) (seasonTeams cf))).length
        = (setDiff (seasonTeams pf) (seasonTeams cf)).length := by
      unfold lexSort
      exact List.length_insertionSort _ _
    rw [champAssign_lookup_at _ _ 0 j [] t hj ht hnd (by omega), hrl, Nat.zero_add]
  simp only [create_team_mapping]
  rw [if_neg hne]
  exact dictLookup_append_left _ _ t _ hbase

/-- C7 witness: at the counterexample input, resolved rank 0 (team P1) is
paired with the last element R4 of the sorted relegated list. -/
theorem c7_witness :
    exSt7 ≠ [] ∧
    (setDiff (seasonTeams exCf7) (seasonTeams exPf7)).length
      = (setDiff (seasonTeams exPf7) (seasonTeams exCf7)).length ∧
    dictLookup (create_team_mapping exCf7 exPf7 exSt7) "P1"
      = some ((lexSort (setDiff (seasonTeams exPf7) (seasonTeams exCf7))).getD
          ((setDiff (seasonTeams exPf7) (seasonTeams exCf7)).length - 1 - 0) "") :=
  ⟨by decide, by decide,
   c7_theorem exCf7 exPf7 exSt7 0 "P1" (by decide) (by decide) (by decide)
     (by decide) (by decide) (by decide)⟩

end EPL
